import Mathlib

/-!
Verification of the ATmega328P hardware abstraction layer (register/bit-field
accessors, the USART0 baud-rate clock-divisor solver, the Atomic critical
section guard, the EEPROM byte interface and the GPIO sub-port driver)
against its natural-language specification.

Machine integers are embedded as `Nat` with explicit reduction modulo
`2 ^ 32` (C++ `uint32_t` wrap-around) and modulo `2 ^ 16` (`uint16_t`
truncation) exactly where the C++ source performs arithmetic in those
types.  C++ division by zero is undefined behaviour and is embedded as
`Option.none`.
-/

/-- Modelled from the spec: `register_access.h` (the `RegisterView` /
`BitInRegister` / `BitGroupInRegister` layer) is not under `src/`; only its
users are.  Per the spec, a bit-group field over bits `[low, high]` of an
8-bit register writes by a read-modify-write that clears exactly the bits
in `[low, high]` and ORs in the value's bits shifted to `low`; bits outside
`[low, high]` are never altered (the spec's frame guarantee for field
writes).  `bitGroupMask low high` is the register mask of the field. -/
def bitGroupMask (low high : Nat) : Nat := ((1 <<< (high - low + 1)) - 1) <<< low

/-- Modelled from the spec: `BitGroupInRegister<Reg, low, high>::write(value)`
(from the missing `register_access.h`): read-modify-write that clears
exactly the bits in `[low, high]` of the 8-bit register and ORs in the
value's bits shifted to `low`, restricted to the field. -/
def bitGroupWrite (low high value reg : Nat) : Nat :=
  (reg &&& (255 ^^^ bitGroupMask low high)) ||| ((value <<< low) &&& bitGroupMask low high)

/-- Modelled from the spec: `BitGroupInRegister<Reg, low, high>::read()`
(from the missing `register_access.h`): reads the register, masks and
shifts bits `[low, high]` down to position 0. -/
def bitGroupRead (low high reg : Nat) : Nat :=
  (reg >>> low) &&& ((1 <<< (high - low + 1)) - 1)

/-- Modelled from the spec: `BitInRegister<Reg, idx>::write(bool)`
(from the missing `register_access.h`): dispatches to set / clear, a
read-modify-write forcing the single bit to 1 respectively 0 without
altering other bits. -/
def bitWrite (idx : Nat) (b : Bool) (reg : Nat) : Nat :=
  if b then reg ||| (1 <<< idx) else reg &&& (255 ^^^ (1 <<< idx))

/-- Modelled from the spec: `BitInRegister<Reg, idx>::read()`
(from the missing `register_access.h`): true iff the addressed bit is 1. -/
def bitRead (idx reg : Nat) : Bool := reg.testBit idx

/-- Modulus of C++ `uint32_t` arithmetic. -/
def UINT32_MOD : Nat := 4294967296

/-- Modulus of C++ `uint16_t` arithmetic. -/
def UINT16_MOD : Nat := 65536

/-- C++ `uint32_t` subtraction `a - b` with wrap-around, for operands
below `2 ^ 32`. -/
def u32sub (a b : Nat) : Nat := (a + (UINT32_MOD - b)) % UINT32_MOD

namespace USART0

/-- `static constexpr uint16_t getUBRRValueSingleSpeed(uint32_t clock, uint32_t baudRate)`
from `m328p_USART0.h`:
`return (clock + baudRate * 8) / (baudRate * 16) - 1;`
All arithmetic is `uint32_t`; the result is truncated to `uint16_t`.
Division by zero (`baudRate * 16 == 0` in `uint32_t`) is undefined
behaviour, embedded as `none`. -/
def getUBRRValueSingleSpeed (clock baudRate : Nat) : Option Nat :=
  let num := (clock + baudRate * 8 % UINT32_MOD) % UINT32_MOD
  let den := baudRate * 16 % UINT32_MOD
  if den = 0 then none
  else some (u32sub (num / den) 1 % UINT16_MOD)

/-- `static constexpr uint16_t getUBRRValueDoubleSpeed(uint32_t clock, uint32_t baudRate)`
from `m328p_USART0.h`:
`return (clock + baudRate * 8) / (baudRate * 8) - 1;` -/
def getUBRRValueDoubleSpeed (clock baudRate : Nat) : Option Nat :=
  let num := (clock + baudRate * 8 % UINT32_MOD) % UINT32_MOD
  let den := baudRate * 8 % UINT32_MOD
  if den = 0 then none
  else some (u32sub (num / den) 1 % UINT16_MOD)

/-- `static constexpr uint32_t getRealBaudRateSingleSpeed(uint32_t clock, uint32_t baudRate)`
from `m328p_USART0.h`:
`return clock / ( 16 * (getUBRRValueSingleSpeed(clock, baudRate) + 1));`
The divisor `16 * (N + 1)` is computed in `int` from the `uint16_t`
value `N`, so it never overflows and is never zero. -/
def getRealBaudRateSingleSpeed (clock baudRate : Nat) : Option Nat :=
  (getUBRRValueSingleSpeed clock baudRate).map (fun n => clock / (16 * (n + 1)))

/-- `static constexpr uint32_t getRealBaudRateDoubleSpeed(uint32_t clock, uint32_t baudRate)`
from `m328p_USART0.h`:
`return clock / ( 8 * (getUBRRValueDoubleSpeed(clock, baudRate) + 1));` -/
def getRealBaudRateDoubleSpeed (clock baudRate : Nat) : Option Nat :=
  (getUBRRValueDoubleSpeed clock baudRate).map (fun n => clock / (8 * (n + 1)))

/-- `static constexpr uint32_t getBaudRateErrorSingleSpeed(uint32_t clock, uint32_t baudRate)`
from `m328p_USART0.h`: if the real baud rate exceeds the requested one,
`(real * 1000) / baudRate - 1000`, otherwise
`(baudRate * 1000) / real - 1000`, all in `uint32_t` arithmetic.
The divisions by `baudRate` (respectively by the real baud rate) are
undefined behaviour when the divisor is zero, embedded as `none`. -/
def getBaudRateErrorSingleSpeed (clock baudRate : Nat) : Option Nat :=
  (getRealBaudRateSingleSpeed clock baudRate).bind (fun real =>
    if baudRate < real then
      if baudRate = 0 then none
      else some (u32sub (real * 1000 % UINT32_MOD / baudRate) 1000)
    else
      if real = 0 then none
      else some (u32sub (baudRate * 1000 % UINT32_MOD / real) 1000))

/-- `static constexpr uint32_t getBaudRateErrorDoubleSpeed(uint32_t clock, uint32_t baudRate)`
from `m328p_USART0.h`. -/
def getBaudRateErrorDoubleSpeed (clock baudRate : Nat) : Option Nat :=
  (getRealBaudRateDoubleSpeed clock baudRate).bind (fun real =>
    if baudRate < real then
      if baudRate = 0 then none
      else some (u32sub (real * 1000 % UINT32_MOD / baudRate) 1000)
    else
      if real = 0 then none
      else some (u32sub (baudRate * 1000 % UINT32_MOD / real) 1000))

/-- `static constexpr bool getDoubleSpeed(uint32_t clock, uint32_t baudRate)`
from `m328p_USART0.h`:
`return getBaudRateErrorDoubleSpeed(clock, baudRate) < getBaudRateErrorSingleSpeed(clock, baudRate);` -/
def getDoubleSpeed (clock baudRate : Nat) : Option Bool :=
  (getBaudRateErrorDoubleSpeed clock baudRate).bind (fun eD =>
    (getBaudRateErrorSingleSpeed clock baudRate).map (fun eS => decide (eD < eS)))

/-- `static constexpr uint16_t getUBRRValue(uint32_t clock, uint32_t baudRate)`
from `m328p_USART0.h`: the divisor of the selected mode. -/
def getUBRRValue (clock baudRate : Nat) : Option Nat :=
  (getDoubleSpeed clock baudRate).bind (fun d =>
    if d then getUBRRValueDoubleSpeed clock baudRate
    else getUBRRValueSingleSpeed clock baudRate)

/-- The baud-rate related register state written by `USART0::init`:
the `UBRR` register and the `U2X` bit of `UCSR0A`. -/
structure BaudRegs where
  ubrr : Nat
  u2x : Bool
deriving DecidableEq

/-- The baud-rate configuring part of `static void init(...)` from
`m328p_USART0.h` (lines 122-126):
`UBRR::write(getUBRRValue(cpuClock, baudRate)); U2X_Bit::write(getDoubleSpeed(cpuClock, baudRate));`
Only the two baud-rate related register writes are modelled; the frame
format writes that follow do not touch `UBRR` or `U2X`. -/
def init (cpuClock baudRate : Nat) : Option BaudRegs :=
  (getUBRRValue cpuClock baudRate).bind (fun u =>
    (getDoubleSpeed cpuClock baudRate).map (fun d => BaudRegs.mk u d))

end USART0

/-- The two Timer1 control registers holding the split WGM field:
`TCCR1A` (bits `WGM10 = 0`, `WGM11 = 1`) and `TCCR1B` (bits `WGM12 = 3`,
`WGM13 = 4`); bit positions from `<avr/io.h>` for the ATmega328P. -/
structure Timer1Regs where
  tccr1a : Nat
  tccr1b : Nat
deriving DecidableEq

namespace Timer1

/-- `Timer1::WGM::write` from `m328p_Timer1.h` (lines 160-164):
`BitGroupInRegister<TCCR1A, WGM10, WGM11>::write(static_cast<uint8_t>(v) & 0b11);`
`BitGroupInRegister<TCCR1B, WGM12, WGM13>::write((static_cast<uint8_t>(v) & 0b11) << 2);` -/
def WGMwrite (v : Nat) (r : Timer1Regs) : Timer1Regs :=
  { tccr1a := bitGroupWrite 0 1 (v &&& 3) r.tccr1a
    tccr1b := bitGroupWrite 3 4 ((v &&& 3) <<< 2) r.tccr1b }

/-- `Timer1::WGM::read` from `m328p_Timer1.h` (lines 166-171):
`uint8_t w = BitGroupInRegister<TCCR1B, WGM12, WGM13>::read() << 2;`
`w |= BitGroupInRegister<TCCR1A, WGM10, WGM11>::read();` -/
def WGMread (r : Timer1Regs) : Nat :=
  (bitGroupRead 3 4 r.tccr1b <<< 2) ||| bitGroupRead 0 1 r.tccr1a

end Timer1

/-- The two Timer0 control registers holding the split WGM field:
`TCCR0A` (bits `WGM00 = 0`, `WGM01 = 1`) and `TCCR0B` (bit `WGM02 = 3`);
bit positions from `<avr/io.h>` for the ATmega328P. -/
structure Timer0Regs where
  tccr0a : Nat
  tccr0b : Nat
deriving DecidableEq

namespace Timer0

/-- `Timer0::WGM::write` from `m328p_Timer0.h` (lines 138-142):
`BitGroupInRegister<TCCR0A, WGM00, WGM01, uint8_t>::write(static_cast<uint8_t>(v) & 0b11);`
`BitInRegister<TCCR0B, WGM02>::write(static_cast<uint8_t>(v) & 0b100);`
(the `uint8_t` argument `v & 0b100` converts to `bool` as `≠ 0`). -/
def WGMwrite (v : Nat) (r : Timer0Regs) : Timer0Regs :=
  { tccr0a := bitGroupWrite 0 1 (v &&& 3) r.tccr0a
    tccr0b := bitWrite 3 (v &&& 4 != 0) r.tccr0b }

/-- `Timer0::WGM::read` from `m328p_Timer0.h` (lines 144-152):
read the low group, then OR in `0b100` when the `WGM02` bit is set. -/
def WGMread (r : Timer0Regs) : Nat :=
  let w := bitGroupRead 0 1 r.tccr0a
  if bitRead 3 r.tccr0b then w ||| 4 else w

end Timer0

/-- The two Timer2 control registers holding the split WGM field:
`TCCR2A` (bits `WGM20 = 0`, `WGM21 = 1`) and `TCCR2B` (bit `WGM22 = 3`);
bit positions from `<avr/io.h>` for the ATmega328P. -/
structure Timer2Regs where
  tccr2a : Nat
  tccr2b : Nat
deriving DecidableEq

namespace Timer2

/-- `Timer2::WGM::write` from `m328p_Timer2.h` (lines 138-142), identical
in structure to `Timer0::WGM::write`. -/
def WGMwrite (v : Nat) (r : Timer2Regs) : Timer2Regs :=
  { tccr2a := bitGroupWrite 0 1 (v &&& 3) r.tccr2a
    tccr2b := bitWrite 3 (v &&& 4 != 0) r.tccr2b }

/-- `Timer2::WGM::read` from `m328p_Timer2.h` (lines 144-152). -/
def WGMread (r : Timer2Regs) : Nat :=
  let w := bitGroupRead 0 1 r.tccr2a
  if bitRead 3 r.tccr2b then w ||| 4 else w

end Timer2

namespace Atomic

/-- `Atomic::Atomic()` from `m328p_Atomic.h` (lines 49-52):
`m_SREG = SREG::read() & _BV(SREG_I)` (`SREG_I = 7`, so `_BV(SREG_I) = 128`),
then `cli()` clears the global interrupt-enable bit of `SREG`.
Returns `(m_SREG, SREG after construction)` for an 8-bit `SREG`. -/
def construct (sreg : Nat) : Nat × Nat := (sreg &&& 128, sreg &&& 127)

/-- `Atomic::~Atomic()` from `m328p_Atomic.h` (lines 57-60):
`SREG::write(SREG::read() | m_SREG)`.  Takes the stored `m_SREG` and the
`SREG` contents immediately before destruction. -/
def destroy (m sreg : Nat) : Nat := sreg ||| m

/-- The nesting scenario of the spec: construct an outer and an inner
`Atomic`, destroy the inner, destroy the outer; nothing else touches
`SREG` in between.  Returns `(SREG after inner destruction, SREG after
outer destruction)`. -/
def nestedScenario (s : Nat) : Nat × Nat :=
  let outer := construct s
  let inner := construct outer.2
  let afterInner := destroy inner.1 inner.2
  let afterOuter := destroy outer.1 afterInner
  (afterInner, afterOuter)

end Atomic

namespace EEPROM

/-- `static constexpr uint32_t capacity()` from `m328p_EEPROM.h`:
`return 1024UL;` -/
def capacity : Nat := 1024

/-- `EEPROM::getBufferPointer(Address offset)` from `m328p_EEPROM.h`
(lines 157-161), as the index into the 1024-byte `EEMEM` buffer:
`auiBuffer + (offset & (capacity()-1))`. -/
def getBufferPointer (offset : Nat) : Nat := offset &&& (capacity - 1)

/-- `static void write(Address pos, uint8_t data)` from `m328p_EEPROM.h`
(lines 114-117): `eeprom_write_byte(getBufferPointer(pos), data)`, on the
buffer modelled as a function from indices to bytes. -/
def write (pos data : Nat) (mem : Nat → Nat) : Nat → Nat :=
  fun i => if i = getBufferPointer pos then data else mem i

/-- `static uint8_t read(Address pos)` from `m328p_EEPROM.h`
(lines 137-140): `eeprom_read_byte(getBufferPointer(pos))`. -/
def read (pos : Nat) (mem : Nat → Nat) : Nat := mem (getBufferPointer pos)

end EEPROM

namespace GPIOSubPort

/-- `GPIOSubPort<port, firstPin, lastPin>::setAsInput()` from
`m328p_GPIO.h` (lines 163-166): `DDR::write(0)` where `DDR` is
`BitGroupInRegister<DDR register, firstPin, lastPin>` (line 206). -/
def setAsInput (firstPin lastPin ddr : Nat) : Nat :=
  bitGroupWrite firstPin lastPin 0 ddr

/-- `GPIOSubPort<port, firstPin, lastPin>::setAsOutput()` from
`m328p_GPIO.h` (lines 171-174): `DDR::write(0xFF)` where `DDR` is
`BitGroupInRegister<DDR register, firstPin, lastPin>` (line 206). -/
def setAsOutput (firstPin lastPin ddr : Nat) : Nat :=
  bitGroupWrite firstPin lastPin 255 ddr

end GPIOSubPort

example : USART0.getUBRRValueSingleSpeed 16000000 9600 = some 103 := by decide
example : USART0.getUBRRValueDoubleSpeed 16000000 9600 = some 208 := by decide
example : USART0.getRealBaudRateSingleSpeed 16000000 9600 = some 9615 := by decide
example : USART0.getRealBaudRateDoubleSpeed 16000000 9600 = some 9569 := by decide
example : USART0.getBaudRateErrorSingleSpeed 16000000 9600 = some 1 := by decide
example : USART0.getBaudRateErrorDoubleSpeed 16000000 9600 = some 3 := by decide
example : USART0.getDoubleSpeed 16000000 9600 = some false := by decide
example : USART0.getUBRRValue 16000000 9600 = some 103 := by decide
example : USART0.getUBRRValueDoubleSpeed 16000000 115200 = some 17 := by decide
example : (16000000 + 115200 * 8 / 2) / (115200 * 8) - 1 = 16 := by decide
example : USART0.getRealBaudRateSingleSpeed 4194304008 1 = some 262144000 := by decide
example : USART0.getBaudRateErrorSingleSpeed 4194304008 1 = some 150993944 := by decide
example : USART0.getUBRRValueSingleSpeed 16000000 0 = none := by decide
example : Timer1.WGMread (Timer1.WGMwrite 4 ⟨0, 0⟩) = 0 := by decide
example : Timer1.WGMread (Timer1.WGMwrite 7 ⟨255, 255⟩) = 3 := by decide
example : Timer0.WGMread (Timer0.WGMwrite 5 ⟨0, 0⟩) = 5 := by decide
example : Timer0.WGMread (Timer0.WGMwrite 2 ⟨255, 255⟩) = 2 := by decide
example : Timer2.WGMread (Timer2.WGMwrite 7 ⟨0, 0⟩) = 7 := by decide
example : Atomic.nestedScenario 0x95 = (0x15, 0x95) := by decide
example : Atomic.destroy (Atomic.construct 0).1 128 = 128 := by decide
example : EEPROM.getBufferPointer 1025 = 1 := by decide
example : GPIOSubPort.setAsOutput 2 4 0b10000001 = 0b10011101 := by decide
example : GPIOSubPort.setAsInput 2 4 0b11111111 = 0b11100011 := by decide

/-! ## Helper lemmas -/

/-- ORing a value that only has the `SREG` interrupt-enable bit (bit 7)
into an `SREG` value leaves the seven lower flag bits untouched. -/
theorem or_snapshot_preserves_low (s m : Nat) :
    (s ||| (m &&& 128)) &&& 127 = s &&& 127 := by
  apply Nat.eq_of_testBit_eq
  intro i
  have h128 : (128 : Nat) = 2 ^ 7 := by norm_num
  have h127 : (127 : Nat) = 2 ^ 7 - 1 := by norm_num
  rw [h128, h127]
  simp only [Nat.testBit_and, Nat.testBit_or, Nat.testBit_two_pow,
    Nat.testBit_two_pow_sub_one]
  by_cases h : i < 7
  · simp [h, show ¬ (7 = i) by omega]
  · simp [h]

/-- The interrupt-enable bit after ORing in a snapshot of that bit is the
OR of the two interrupt-enable bits. -/
theorem or_snapshot_bit7 (s m : Nat) :
    (s ||| (m &&& 128)) &&& 128 = (m ||| s) &&& 128 := by
  apply Nat.eq_of_testBit_eq
  intro i
  have h128 : (128 : Nat) = 2 ^ 7 := by norm_num
  rw [h128]
  simp only [Nat.testBit_and, Nat.testBit_or, Nat.testBit_two_pow]
  by_cases h : (7 : Nat) = i
  · cases hs : s.testBit i <;> cases hm : m.testBit i <;> simp [h]
  · simp [h]

/-- When the interrupt-enable bit is clear before the OR, the resulting
interrupt-enable bit is exactly the snapshot's bit. -/
theorem or_snapshot_bit7_of_clear (s m : Nat) (h : s &&& 128 = 0) :
    (s ||| (m &&& 128)) &&& 128 = m &&& 128 := by
  rw [or_snapshot_bit7]
  apply Nat.eq_of_testBit_eq
  intro i
  have h7 : s.testBit 7 = false := by
    have h0 : (s &&& 128).testBit 7 = false := by rw [h]; simp
    rw [Nat.testBit_and, show Nat.testBit 128 7 = true by decide, Bool.and_true] at h0
    exact h0
  have h128 : (128 : Nat) = 2 ^ 7 := by norm_num
  rw [h128]
  simp only [Nat.testBit_and, Nat.testBit_or, Nat.testBit_two_pow]
  by_cases hi : (7 : Nat) = i
  · subst hi; simp [h7]
  · simp [hi]

/-- Bitwise AND with `1023 = 2 ^ 10 - 1` is reduction modulo `1024`. -/
theorem and_1023_eq_mod (n : Nat) : n &&& 1023 = n % 1024 := by
  apply Nat.eq_of_testBit_eq
  intro i
  have h1023 : (1023 : Nat) = 2 ^ 10 - 1 := by norm_num
  have h1024 : (1024 : Nat) = 2 ^ 10 := by norm_num
  rw [h1023, h1024]
  simp only [Nat.testBit_and, Nat.testBit_mod_two_pow, Nat.testBit_two_pow_sub_one]
  exact Bool.and_comm _ _

/-- Bit `i` of `bitGroupMask low high` is set exactly for
`low ≤ i < low + (high - low + 1)` (which is `low ≤ i ≤ high` whenever
`low ≤ high`). -/
theorem testBit_bitGroupMask (low high i : Nat) :
    (bitGroupMask low high).testBit i =
      decide (low ≤ i ∧ i < low + (high - low + 1)) := by
  unfold bitGroupMask
  rw [show (1 <<< (high - low + 1) - 1 : Nat) = 2 ^ (high - low + 1) - 1 by
    rw [Nat.shiftLeft_eq, Nat.one_mul]]
  simp only [Nat.testBit_shiftLeft, Nat.testBit_two_pow_sub_one, ge_iff_le]
  by_cases hl : low ≤ i
  · rw [decide_eq_true hl, Bool.true_and, decide_eq_decide]
    omega
  · simp [hl]

/-- Inside the bit group, a group write stores the value's bits
(shifted down by `low`). -/
theorem testBit_bitGroupWrite_in (low high v reg i : Nat)
    (h1 : low ≤ i) (h2 : i ≤ high) (h8 : high < 8) :
    (bitGroupWrite low high v reg).testBit i = v.testBit (i - low) := by
  unfold bitGroupWrite
  simp only [Nat.testBit_or, Nat.testBit_and, Nat.testBit_xor,
    Nat.testBit_shiftLeft, ge_iff_le, testBit_bitGroupMask]
  rw [decide_eq_true (by omega : low ≤ i ∧ i < low + (high - low + 1))]
  rw [show Nat.testBit 255 i = true by
    rw [show (255 : Nat) = 2 ^ 8 - 1 by norm_num, Nat.testBit_two_pow_sub_one]
    exact decide_eq_true (by omega)]
  simp [h1]

/-- Outside the bit group (but within the 8-bit register), a group write
leaves the register bit unchanged. -/
theorem testBit_bitGroupWrite_out (low high v reg i : Nat)
    (hlh : low ≤ high) (hout : i < low ∨ high < i) (h8 : i < 8) :
    (bitGroupWrite low high v reg).testBit i = reg.testBit i := by
  unfold bitGroupWrite
  simp only [Nat.testBit_or, Nat.testBit_and, Nat.testBit_xor,
    Nat.testBit_shiftLeft, ge_iff_le, testBit_bitGroupMask]
  rw [decide_eq_false (by omega : ¬ (low ≤ i ∧ i < low + (high - low + 1)))]
  rw [show Nat.testBit 255 i = true by
    rw [show (255 : Nat) = 2 ^ 8 - 1 by norm_num, Nat.testBit_two_pow_sub_one]
    exact decide_eq_true (by omega)]
  simp

namespace USART0

/-- Inversion: a defined real baud rate comes from a defined divisor
(single speed). -/
theorem exists_ubrr_of_real_single (F B r : Nat)
    (h : getRealBaudRateSingleSpeed F B = some r) :
    ∃ n, getUBRRValueSingleSpeed F B = some n ∧ r = F / (16 * (n + 1)) := by
  unfold getRealBaudRateSingleSpeed at h
  cases hn : getUBRRValueSingleSpeed F B with
  | none => rw [hn] at h; simp at h
  | some n =>
    rw [hn] at h
    simp only [Option.map_some'] at h
    exact ⟨n, rfl, (Option.some_inj.mp h).symm⟩

/-- Inversion: a defined real baud rate comes from a defined divisor
(double speed). -/
theorem exists_ubrr_of_real_double (F B r : Nat)
    (h : getRealBaudRateDoubleSpeed F B = some r) :
    ∃ n, getUBRRValueDoubleSpeed F B = some n ∧ r = F / (8 * (n + 1)) := by
  unfold getRealBaudRateDoubleSpeed at h
  cases hn : getUBRRValueDoubleSpeed F B with
  | none => rw [hn] at h; simp at h
  | some n =>
    rw [hn] at h
    simp only [Option.map_some'] at h
    exact ⟨n, rfl, (Option.some_inj.mp h).symm⟩

/-- Inversion: a defined baud-rate error comes from a defined real baud
rate (single speed). -/
theorem exists_real_of_err_single (F B e : Nat)
    (h : getBaudRateErrorSingleSpeed F B = some e) :
    ∃ r, getRealBaudRateSingleSpeed F B = some r := by
  unfold getBaudRateErrorSingleSpeed at h
  cases hr : getRealBaudRateSingleSpeed F B with
  | none => rw [hr] at h; simp at h
  | some r => exact ⟨r, rfl⟩

/-- Inversion: a defined baud-rate error comes from a defined real baud
rate (double speed). -/
theorem exists_real_of_err_double (F B e : Nat)
    (h : getBaudRateErrorDoubleSpeed F B = some e) :
    ∃ r, getRealBaudRateDoubleSpeed F B = some r := by
  unfold getBaudRateErrorDoubleSpeed at h
  cases hr : getRealBaudRateDoubleSpeed F B with
  | none => rw [hr] at h; simp at h
  | some r => exact ⟨r, rfl⟩

/-- Core evaluation of the baud-rate error expression shared by the
single- and double-speed error functions: with a non-zero requested rate
and non-zero achieved rate, and both products below `2 ^ 32`, it is the
plain parts-per-thousand formula, whose quotient is at least 1000 (so
the final subtraction of 1000 does not wrap). -/
theorem baud_error_core (B r : Nat) (hB : 1 ≤ B) (h0 : 0 < r)
    (hro : r * 1000 < UINT32_MOD) (hBo : B * 1000 < UINT32_MOD) :
    (if B < r then
       if B = 0 then none
       else some (u32sub (r * 1000 % UINT32_MOD / B) 1000)
     else
       if r = 0 then none
       else some (u32sub (B * 1000 % UINT32_MOD / r) 1000)) =
      some (if B < r then r * 1000 / B - 1000 else B * 1000 / r - 1000) ∧
    1000 ≤ (if B < r then r * 1000 / B else B * 1000 / r) := by
  have hM : UINT32_MOD = 4294967296 := rfl
  rw [hM] at hro hBo
  have hB0 : B ≠ 0 := by omega
  have hr0 : r ≠ 0 := by omega
  by_cases h : B < r
  · have hq : 1000 ≤ r * 1000 / B := by
      rw [Nat.le_div_iff_mul_le (by omega : 0 < B)]
      calc 1000 * B = B * 1000 := by ring
        _ ≤ r * 1000 := Nat.mul_le_mul_right 1000 (by omega)
    have hmod : r * 1000 % UINT32_MOD = r * 1000 := by
      rw [hM]; exact Nat.mod_eq_of_lt hro
    have hdlt : r * 1000 / B < 4294967296 :=
      lt_of_le_of_lt (Nat.div_le_self _ _) hro
    have hsub : u32sub (r * 1000 / B) 1000 = r * 1000 / B - 1000 := by
      unfold u32sub
      rw [hM]
      omega
    simp [h, hB0, hmod, hsub, hq]
  · have hq : 1000 ≤ B * 1000 / r := by
      rw [Nat.le_div_iff_mul_le (by omega : 0 < r)]
      calc 1000 * r = r * 1000 := by ring
        _ ≤ B * 1000 := Nat.mul_le_mul_right 1000 (by omega)
    have hmod : B * 1000 % UINT32_MOD = B * 1000 := by
      rw [hM]; exact Nat.mod_eq_of_lt hBo
    have hdlt : B * 1000 / r < 4294967296 :=
      lt_of_le_of_lt (Nat.div_le_self _ _) hBo
    have hsub : u32sub (B * 1000 / r) 1000 = B * 1000 / r - 1000 := by
      unfold u32sub
      rw [hM]
      omega
    simp [h, hr0, hmod, hsub, hq]

end USART0

/-! ## Claim theorems -/

/-- Claim C1 (refuted by evaluation; the code contradicts the spec's
round-trip property for composite fields): `Timer1::WGM::write` passes
`(v & 0b11) << 2` - the LOW two bits of `v` - to the `WGM12`/`WGM13`
bit group of `TCCR1B`, where `read` reassembles the HIGH two bits from
that group.  Writing `CTC_1 = 0b0100` to zeroed control registers and
reading back yields `NORMAL = 0`, not the written value.  Timer0 and
Timer2, whose high WGM bit goes through a boolean single-bit write,
round-trip correctly at the corresponding value `PWM_PHASE_CORRECT_2 =
0b101`. -/
theorem c1_timer1_wgm_roundtrip_failure :
    Timer1.WGMread (Timer1.WGMwrite 4 ⟨0, 0⟩) = 0 ∧
    Timer0.WGMread (Timer0.WGMwrite 5 ⟨0, 0⟩) = 5 ∧
    Timer2.WGMread (Timer2.WGMwrite 5 ⟨0, 0⟩) = 5 := by decide

/-- Claim C2 (refuted by evaluation; the double-speed divisor is not the
claimed nearest-integer rounding): the code computes
`(clock + baudRate * 8) / (baudRate * 8) - 1`, i.e. with bias
`B * ticks` instead of the claimed `B * ticks / 2`.  At clock 16000000
and rate 115200 the code yields divisor 17 while the claimed formula
yields 16.  The single-speed divisor does match the claimed formula at
the same input. -/
theorem c2_double_speed_divisor_evaluation :
    USART0.getUBRRValueDoubleSpeed 16000000 115200 = some 17 ∧
    (16000000 + 115200 * 8 / 2) / (115200 * 8) - 1 = 16 ∧
    USART0.getUBRRValueSingleSpeed 16000000 115200 =
      some ((16000000 + 115200 * 16 / 2) / (115200 * 16) - 1) := by decide

/-- Claim C3: for reference clock 16000000 and requested rate 9600 the
solver selects single-speed mode and the returned divisor is 103. -/
theorem c3_solver_16mhz_9600 :
    USART0.getDoubleSpeed 16000000 9600 = some false ∧
    USART0.getUBRRValue 16000000 9600 = some 103 := by decide

set_option maxRecDepth 8000 in
/-- Claim C7: the `Atomic` guard nests safely.  Starting with the
interrupt-enable bit set, after constructing two nested guards and
destroying the inner one interrupts are still disabled, and destroying
the outer one re-enables them; starting with interrupts disabled,
constructing and destroying a guard leaves them disabled. -/
theorem c7_atomic_nesting (s : Fin 256) :
    (s.val &&& 128 = 128 →
      (Atomic.nestedScenario s.val).1 &&& 128 = 0 ∧
      (Atomic.nestedScenario s.val).2 &&& 128 = 128) ∧
    (s.val &&& 128 = 0 →
      Atomic.destroy (Atomic.construct s.val).1 (Atomic.construct s.val).2
        &&& 128 = 0) := by
  revert s
  decide

/-- Witness for C7 at the concrete `SREG` values 149 (interrupt-enable
bit set) and 21 (interrupt-enable bit clear). -/
theorem c7_atomic_nesting_witness :
    ((Atomic.nestedScenario 149).1 &&& 128 = 0 ∧
     (Atomic.nestedScenario 149).2 &&& 128 = 128) ∧
    Atomic.destroy (Atomic.construct 21).1 (Atomic.construct 21).2
      &&& 128 = 0 :=
  ⟨(c7_atomic_nesting ⟨149, by decide⟩).1 (by decide),
   (c7_atomic_nesting ⟨21, by decide⟩).2 (by decide)⟩

/-- Claim C8 is refuted at a concrete input: with the snapshot taken at
`SREG = 0` (interrupt-enable bit clear) and `SREG = 128` immediately
before destruction (interrupt-enable bit set, e.g. re-enabled inside the
section), the destructor `SREG |= m_SREG` leaves the interrupt-enable
bit set instead of restoring the snapshot's cleared bit. -/
theorem c8_restore_counterexample :
    Atomic.destroy (Atomic.construct 0).1 128 &&& 128 = 128 ∧
    (0 : Nat) &&& 128 = 0 ∧ (128 : Nat) ≠ 0 := by decide

/-- Claim C8 as amended: destruction never changes the seven
non-interrupt-enable bits of `SREG`, and the interrupt-enable bit
afterwards is the OR of the snapshot's bit and the bit immediately
before destruction; in particular the snapshot's bit is restored
whenever interrupts are disabled at the moment of destruction. -/
theorem c8_restore_amended (s0 s : Nat) :
    Atomic.destroy (Atomic.construct s0).1 s &&& 127 = s &&& 127 ∧
    (s &&& 128 = 0 →
      Atomic.destroy (Atomic.construct s0).1 s &&& 128 = s0 &&& 128) ∧
    Atomic.destroy (Atomic.construct s0).1 s &&& 128 = (s0 ||| s) &&& 128 := by
  refine ⟨?_, ?_, ?_⟩
  · exact or_snapshot_preserves_low s s0
  · intro h
    exact or_snapshot_bit7_of_clear s s0 h
  · exact or_snapshot_bit7 s s0

/-- Witness for the amended C8 at snapshot source `SREG = 37` and
pre-destruction `SREG = 64`. -/
theorem c8_restore_amended_witness :
    Atomic.destroy (Atomic.construct 37).1 64 &&& 127 = 64 &&& 127 ∧
    Atomic.destroy (Atomic.construct 37).1 64 &&& 128 = 37 &&& 128 :=
  ⟨(c8_restore_amended 37 64).1, (c8_restore_amended 37 64).2.1 (by decide)⟩

/-- Claim C9: for every 16-bit position, the EEPROM single-byte interface
addresses the internal 1024-byte buffer at index `pos % 1024`, which is
always within `capacity()`; writing then reading the same position
returns the written byte. -/
theorem c9_eeprom_wraparound (pos : Fin 65536) (d : Nat) (mem : Nat → Nat) :
    EEPROM.getBufferPointer pos.val = pos.val % 1024 ∧
    EEPROM.getBufferPointer pos.val < EEPROM.capacity ∧
    EEPROM.read pos.val (EEPROM.write pos.val d mem) = d := by
  have h1 : EEPROM.getBufferPointer pos.val = pos.val % 1024 := by
    simpa [EEPROM.getBufferPointer, EEPROM.capacity] using and_1023_eq_mod pos.val
  refine ⟨h1, ?_, ?_⟩
  · rw [h1]
    exact Nat.mod_lt _ (by norm_num)
  · simp [EEPROM.read, EEPROM.write]

/-- Claim C4: double-speed mode is selected iff the double-speed error is
strictly smaller than the single-speed error (ties select single speed),
`getUBRRValue` returns exactly the selected mode's divisor, and
`USART0::init` writes the consistent (divisor, speed-flag) pair to the
`UBRR` register and the `U2X` bit. -/
theorem c4_mode_selection_consistent (F B eS eD : Nat)
    (hS : USART0.getBaudRateErrorSingleSpeed F B = some eS)
    (hD : USART0.getBaudRateErrorDoubleSpeed F B = some eD) :
    USART0.getDoubleSpeed F B = some (decide (eD < eS)) ∧
    USART0.getUBRRValue F B =
      (if eD < eS then USART0.getUBRRValueDoubleSpeed F B
       else USART0.getUBRRValueSingleSpeed F B) ∧
    ∃ u, USART0.getUBRRValue F B = some u ∧
      USART0.init F B = some ⟨u, decide (eD < eS)⟩ := by
  have hds : USART0.getDoubleSpeed F B = some (decide (eD < eS)) := by
    simp [USART0.getDoubleSpeed, hS, hD]
  have hub : USART0.getUBRRValue F B =
      (if eD < eS then USART0.getUBRRValueDoubleSpeed F B
       else USART0.getUBRRValueSingleSpeed F B) := by
    simp only [USART0.getUBRRValue, hds, Option.some_bind]
    by_cases h : eD < eS <;> simp [h]
  refine ⟨hds, hub, ?_⟩
  by_cases h : eD < eS
  · obtain ⟨rD, hrD⟩ := USART0.exists_real_of_err_double F B eD hD
    obtain ⟨nD, hnD, _⟩ := USART0.exists_ubrr_of_real_double F B rD hrD
    refine ⟨nD, ?_, ?_⟩
    · rw [hub, if_pos h, hnD]
    · simp [USART0.init, hub, if_pos h, hnD, hds]
  · obtain ⟨rS, hrS⟩ := USART0.exists_real_of_err_single F B eS hS
    obtain ⟨nS, hnS, _⟩ := USART0.exists_ubrr_of_real_single F B rS hrS
    refine ⟨nS, ?_, ?_⟩
    · rw [hub, if_neg h, hnS]
    · simp [USART0.init, hub, if_neg h, hnS, hds]

/-- Witness for C4 at clock 16000000 and rate 9600, where the errors are
1 (single speed) and 3 (double speed). -/
theorem c4_mode_selection_consistent_witness :
    USART0.getDoubleSpeed 16000000 9600 = some (decide ((3 : Nat) < 1)) ∧
    USART0.getUBRRValue 16000000 9600 =
      (if (3 : Nat) < 1 then USART0.getUBRRValueDoubleSpeed 16000000 9600
       else USART0.getUBRRValueSingleSpeed 16000000 9600) ∧
    ∃ u, USART0.getUBRRValue 16000000 9600 = some u ∧
      USART0.init 16000000 9600 = some ⟨u, decide ((3 : Nat) < 1)⟩ :=
  c4_mode_selection_consistent 16000000 9600 1 3 (by decide) (by decide)

/-- Claim C5 is refuted at a concrete input: at clock 4194304008 and
requested rate 1, the divisor truncates (via the `uint16_t` cast) to 0,
the achieved rate is 262144000 (greater than the requested rate), and
the achieved-rate branch computes the error through the `uint32_t`
product `262144000 * 1000`, which wraps modulo `2 ^ 32`; the code yields
150993944 while the claimed formula `achieved * 1000 / requested - 1000`
yields 262143999000. -/
theorem c5_error_formula_counterexample :
    USART0.getRealBaudRateSingleSpeed 4194304008 1 = some 262144000 ∧
    USART0.getBaudRateErrorSingleSpeed 4194304008 1 = some 150993944 ∧
    262144000 * 1000 / 1 - 1000 = 262143999000 ∧
    (150993944 : Nat) ≠ 262143999000 := by decide

/-- Claim C5 as amended: for inputs where the error computation is
defined (requested rate and achieved rate non-zero) and neither product
`achieved * 1000` nor `requested * 1000` overflows `2 ^ 32`, each mode's
error equals `achieved * 1000 / requested - 1000` when the achieved rate
exceeds the requested one and `requested * 1000 / achieved - 1000`
otherwise, and in both cases the quotient is at least 1000, so the
subtraction does not wrap and the result is a non-negative magnitude. -/
theorem c5_error_formula_amended (F B rS rD : Nat) (hB : 1 ≤ B)
    (hrS : USART0.getRealBaudRateSingleSpeed F B = some rS) (hrS0 : 0 < rS)
    (hSo : rS * 1000 < UINT32_MOD)
    (hrD : USART0.getRealBaudRateDoubleSpeed F B = some rD) (hrD0 : 0 < rD)
    (hDo : rD * 1000 < UINT32_MOD)
    (hBo : B * 1000 < UINT32_MOD) :
    USART0.getBaudRateErrorSingleSpeed F B =
      some (if B < rS then rS * 1000 / B - 1000 else B * 1000 / rS - 1000) ∧
    1000 ≤ (if B < rS then rS * 1000 / B else B * 1000 / rS) ∧
    USART0.getBaudRateErrorDoubleSpeed F B =
      some (if B < rD then rD * 1000 / B - 1000 else B * 1000 / rD - 1000) ∧
    1000 ≤ (if B < rD then rD * 1000 / B else B * 1000 / rD) := by
  have hcS := USART0.baud_error_core B rS hB hrS0 hSo hBo
  have hcD := USART0.baud_error_core B rD hB hrD0 hDo hBo
  refine ⟨?_, hcS.2, ?_, hcD.2⟩
  · rw [USART0.getBaudRateErrorSingleSpeed, hrS, Option.some_bind]
    exact hcS.1
  · rw [USART0.getBaudRateErrorDoubleSpeed, hrD, Option.some_bind]
    exact hcD.1

/-- Witness for the amended C5 at clock 16000000 and rate 9600 (achieved
rates 9615 single speed, 9569 double speed). -/
theorem c5_error_formula_amended_witness :
    USART0.getBaudRateErrorSingleSpeed 16000000 9600 =
      some (if 9600 < 9615 then 9615 * 1000 / 9600 - 1000
            else 9600 * 1000 / 9615 - 1000) ∧
    1000 ≤ (if 9600 < 9615 then 9615 * 1000 / 9600 else 9600 * 1000 / 9615) ∧
    USART0.getBaudRateErrorDoubleSpeed 16000000 9600 =
      some (if 9600 < 9569 then 9569 * 1000 / 9600 - 1000
            else 9600 * 1000 / 9569 - 1000) ∧
    1000 ≤ (if 9600 < 9569 then 9569 * 1000 / 9600 else 9600 * 1000 / 9569) :=
  c5_error_formula_amended 16000000 9600 9615 9569 (by decide) (by decide)
    (by decide) (by decide) (by decide) (by decide) (by decide) (by decide)

/-- Claim C6 is refuted at concrete inputs: a requested rate of 0 makes
the divisor of the division in `getUBRRValueSingleSpeed` zero (undefined
behaviour, not a divisor of 0), and a clock of 0 with requested rate
9600 makes the achieved rate 0, so the error computation divides by
zero. -/
theorem c6_totality_counterexample :
    USART0.getUBRRValueSingleSpeed 16000000 0 = none ∧
    USART0.getRealBaudRateSingleSpeed 0 9600 = some 0 ∧
    USART0.getBaudRateErrorSingleSpeed 0 9600 = none := by decide

/-- Claim C6 as amended: whenever the requested rate is at least 1 and
both achieved rates are defined and non-zero, every division in the
solver has a non-zero divisor: both error computations, the mode
selection, the selected divisor and the (divisor, speed-flag) pair
written by `init` are all defined. -/
theorem c6_totality_amended (F B rS rD : Nat) (hB : 1 ≤ B)
    (hrS : USART0.getRealBaudRateSingleSpeed F B = some rS) (hrS0 : 0 < rS)
    (hrD : USART0.getRealBaudRateDoubleSpeed F B = some rD) (hrD0 : 0 < rD) :
    (USART0.getBaudRateErrorSingleSpeed F B).isSome = true ∧
    (USART0.getBaudRateErrorDoubleSpeed F B).isSome = true ∧
    (USART0.getDoubleSpeed F B).isSome = true ∧
    (USART0.getUBRRValue F B).isSome = true ∧
    (USART0.init F B).isSome = true := by
  have hB0 : B ≠ 0 := by omega
  have hS0 : rS ≠ 0 := by omega
  have hD0 : rD ≠ 0 := by omega
  have heS : ∃ e, USART0.getBaudRateErrorSingleSpeed F B = some e := by
    rw [USART0.getBaudRateErrorSingleSpeed, hrS, Option.some_bind]
    by_cases h : B < rS <;> simp [h, hB0, hS0]
  have heD : ∃ e, USART0.getBaudRateErrorDoubleSpeed F B = some e := by
    rw [USART0.getBaudRateErrorDoubleSpeed, hrD, Option.some_bind]
    by_cases h : B < rD <;> simp [h, hB0, hD0]
  obtain ⟨eS, heS⟩ := heS
  obtain ⟨eD, heD⟩ := heD
  obtain ⟨nS, hnS, _⟩ := USART0.exists_ubrr_of_real_single F B rS hrS
  obtain ⟨nD, hnD, _⟩ := USART0.exists_ubrr_of_real_double F B rD hrD
  have hds : USART0.getDoubleSpeed F B = some (decide (eD < eS)) := by
    simp [USART0.getDoubleSpeed, heS, heD]
  have hub : ∃ u, USART0.getUBRRValue F B = some u := by
    rw [USART0.getUBRRValue, hds, Option.some_bind]
    by_cases h : eD < eS <;> simp [h, hnS, hnD]
  obtain ⟨u, hub⟩ := hub
  refine ⟨?_, ?_, ?_, ?_, ?_⟩ <;>
    simp [heS, heD, hds, hub, USART0.init]

/-- Witness for the amended C6 at clock 16000000 and rate 9600. -/
theorem c6_totality_amended_witness :
    (USART0.getBaudRateErrorSingleSpeed 16000000 9600).isSome = true ∧
    (USART0.getBaudRateErrorDoubleSpeed 16000000 9600).isSome = true ∧
    (USART0.getDoubleSpeed 16000000 9600).isSome = true ∧
    (USART0.getUBRRValue 16000000 9600).isSome = true ∧
    (USART0.init 16000000 9600).isSome = true :=
  c6_totality_amended 16000000 9600 9615 9569 (by decide) (by decide)
    (by decide) (by decide) (by decide)

/-- Claim C10: for a GPIO sub-port over pins `[firstPin, lastPin]` of an
8-bit data-direction register, `setAsOutput()` (which passes the
full-width value `0xFF` to the underlying bit-group write) sets exactly
the DDR bits in `[firstPin, lastPin]` and leaves every DDR bit outside
that range unchanged; `setAsInput()` clears exactly the bits in the
range and likewise leaves the others unchanged. -/
theorem c10_subport_frame (firstPin lastPin : Nat) (hle : firstPin ≤ lastPin)
    (hlt : lastPin < 8) (ddr i : Nat) (hi : i < 8) :
    ((firstPin ≤ i ∧ i ≤ lastPin) →
      (GPIOSubPort.setAsOutput firstPin lastPin ddr).testBit i = true ∧
      (GPIOSubPort.setAsInput firstPin lastPin ddr).testBit i = false) ∧
    ((i < firstPin ∨ lastPin < i) →
      (GPIOSubPort.setAsOutput firstPin lastPin ddr).testBit i = ddr.testBit i ∧
      (GPIOSubPort.setAsInput firstPin lastPin ddr).testBit i = ddr.testBit i) := by
  constructor
  · rintro ⟨h1, h2⟩
    constructor
    · rw [GPIOSubPort.setAsOutput,
        testBit_bitGroupWrite_in firstPin lastPin 255 ddr i h1 h2 hlt]
      rw [show (255 : Nat) = 2 ^ 8 - 1 by norm_num, Nat.testBit_two_pow_sub_one]
      exact decide_eq_true (by omega)
    · rw [GPIOSubPort.setAsInput,
        testBit_bitGroupWrite_in firstPin lastPin 0 ddr i h1 h2 hlt]
      simp
  · intro hout
    exact ⟨by
        rw [GPIOSubPort.setAsOutput]
        exact testBit_bitGroupWrite_out firstPin lastPin 255 ddr i hle hout hi,
      by
        rw [GPIOSubPort.setAsInput]
        exact testBit_bitGroupWrite_out firstPin lastPin 0 ddr i hle hout hi⟩

/-- Witness for C10 for the sub-port over pins 2..4 of a register holding
`0b10000001`, at the in-range bit 3 and the out-of-range bit 7. -/
theorem c10_subport_frame_witness :
    ((GPIOSubPort.setAsOutput 2 4 129).testBit 3 = true ∧
     (GPIOSubPort.setAsInput 2 4 129).testBit 3 = false) ∧
    ((GPIOSubPort.setAsOutput 2 4 129).testBit 7 = (129 : Nat).testBit 7 ∧
     (GPIOSubPort.setAsInput 2 4 129).testBit 7 = (129 : Nat).testBit 7) :=
  ⟨(c10_subport_frame 2 4 (by decide) (by decide) 129 3 (by decide)).1
      (by constructor <;> decide),
   (c10_subport_frame 2 4 (by decide) (by decide) 129 7 (by decide)).2
      (Or.inr (by decide))⟩
